import Mathlib

/-!
# RouteStorm — verification of the route-planning pipeline

Shallow embedding of `src/RouteStorm.py`: a single-vehicle weather-adjusted
route planner.  The pipeline is

  coordinates → base travel-time matrix → weather-adjusted matrix → tour.

Modelling conventions:

* Python floats are modelled as exact numbers: `ℝ` where the source uses
  transcendental functions (`haversine_km` and the base matrix built from it),
  and a general `LinearOrderedField` (instantiated at `ℚ` in witnesses) for
  the purely arithmetic matrix/solver layers.
* Python lists of lists are `List (List α)`; indexing `xs[i]` is modelled by
  `List.getD` with a default that is never reached under the in-range
  hypotheses of the theorems (Python would raise `IndexError` out of range).
* Effectful calls (the `requests.get` HTTP fetch) are modelled by passing the
  fetch outcome in as an `Except` value; a raised Python exception is the
  `Except.error` case, which the embedded code propagates exactly where the
  source has no `try`/`except`.
* Timestamp handling (`dateutil.parser`, `strftime`) is pure string
  processing against an external library; it is abstracted into the
  pre-computed UTC hour key (`"%Y-%m-%dT%H:00"`) each lookup uses.
-/

namespace RouteStorm

/-- `math.radians`: degrees to radians, `x * π / 180`. -/
noncomputable def radians (x : ℝ) : ℝ := x * Real.pi / 180

/-- A stop from the module-level `stops` list: display name and coordinates.
(The optional `when` timestamp is handled separately by the weather layer,
which works from the derived UTC hour key.) -/
structure Stop where
  name : String
  lat : ℝ
  lon : ℝ

instance : Inhabited Stop := ⟨⟨"", 0, 0⟩⟩

/-- `haversine_km` (source lines 16–20): great-circle distance in km with
Earth radius 6371.0088, `2*R*asin(sqrt(a))`. -/
noncomputable def haversine_km (lat1 lon1 lat2 lon2 : ℝ) : ℝ :=
  let R : ℝ := 6371.0088
  let dlat := radians (lat2 - lat1)
  let dlon := radians (lon2 - lon1)
  let a := Real.sin (dlat / 2) ^ 2 +
    Real.cos (radians lat1) * Real.cos (radians lat2) * Real.sin (dlon / 2) ^ 2
  2 * R * Real.arcsin (Real.sqrt a)

/-- The squared-sine terms of the haversine formula are insensitive to the
sign of the coordinate difference. -/
lemma sin_sq_radians_sub_comm (x y : ℝ) :
    Real.sin (radians (x - y) / 2) ^ 2 = Real.sin (radians (y - x) / 2) ^ 2 := by
  have h : radians (x - y) / 2 = -(radians (y - x) / 2) := by
    unfold radians; ring
  rw [h, Real.sin_neg, neg_sq]

/-- Swapping the two endpoints leaves the haversine distance unchanged. -/
lemma haversine_km_comm (lat1 lon1 lat2 lon2 : ℝ) :
    haversine_km lat1 lon1 lat2 lon2 = haversine_km lat2 lon2 lat1 lon1 := by
  unfold haversine_km
  dsimp only
  rw [sin_sq_radians_sub_comm lat2 lat1, sin_sq_radians_sub_comm lon2 lon1,
    mul_comm (Real.cos (radians lat1)) (Real.cos (radians lat2))]

/-- The haversine distance from a point to itself is `0`. -/
lemma haversine_km_self (lat lon : ℝ) : haversine_km lat lon lat lon = 0 := by
  unfold haversine_km radians
  simp

/-- The haversine distance is never negative. -/
lemma haversine_km_nonneg (lat1 lon1 lat2 lon2 : ℝ) :
    0 ≤ haversine_km lat1 lon1 lat2 lon2 := by
  unfold haversine_km
  have h1 : (0:ℝ) ≤ 2 * 6371.0088 := by norm_num
  exact mul_nonneg h1 (Real.arcsin_nonneg.mpr (Real.sqrt_nonneg _))

/-- C8: for every pair of coordinates in the legal domain
(latitude in [-90,90], longitude in [-180,180]), the great-circle distance
function `haversine_km` is symmetric and zero on equal endpoints.  It is a
pure total function of its four real arguments (totality is immediate in the
embedding: it is a Lean function on `ℝ`). -/
theorem haversine_km_symm_self (a b : Stop)
    (ha1 : -90 ≤ a.lat) (ha2 : a.lat ≤ 90) (ha3 : -180 ≤ a.lon) (ha4 : a.lon ≤ 180)
    (hb1 : -90 ≤ b.lat) (hb2 : b.lat ≤ 90) (hb3 : -180 ≤ b.lon) (hb4 : b.lon ≤ 180) :
    haversine_km a.lat a.lon b.lat b.lon = haversine_km b.lat b.lon a.lat a.lon ∧
    haversine_km a.lat a.lon a.lat a.lon = 0 :=
  ⟨haversine_km_comm _ _ _ _, haversine_km_self _ _⟩

/-- Witness for C8 at the depot and stop A of the module-level stop list. -/
theorem haversine_km_symm_self_witness :
    haversine_km 41.1176 (-85.0689) 41.1802 (-84.9960) =
      haversine_km 41.1802 (-84.9960) 41.1176 (-85.0689) ∧
    haversine_km 41.1176 (-85.0689) 41.1176 (-85.0689) = 0 :=
  haversine_km_symm_self ⟨"Depot", 41.1176, -85.0689⟩ ⟨"Stop A", 41.1802, -84.9960⟩
    (by norm_num) (by norm_num) (by norm_num) (by norm_num)
    (by norm_num) (by norm_num) (by norm_num) (by norm_num)

/-! ## Base travel-time matrix (source lines 25–35) -/

/-- Indexing a row built by mapping over `List.range`. -/
lemma getD_map_range {β : Type _} (f : ℕ → β) {n i : ℕ} (hi : i < n) (d : β) :
    ((List.range n).map f).getD i d = f i := by
  rw [List.getD_eq_getElem?_getD, List.getElem?_map, List.getElem?_range hi]
  rfl

/-- Python runtime errors the embedded code can raise. -/
inductive PyErr where
  | zeroDivision
deriving DecidableEq

/-- The module-level `stops` list (source lines 8–13). -/
def stops : List Stop :=
  [⟨"Depot", 41.1176, -85.0689⟩, ⟨"Stop A", 41.1802, -84.9960⟩,
   ⟨"Stop B", 41.0953, -85.1394⟩, ⟨"Stop C", 41.2281, -85.0111⟩]

/-- `build_base_time_matrix` (source lines 25–35): an `n×n` matrix of minutes,
`m[i][j] = haversine_km(i,j) / assumed_speed_kph * 60` off the diagonal and
`0.0` on it.  The source performs no validation of the speed; the division is
executed for every `i ≠ j`, so with at least two stops a zero speed raises
`ZeroDivisionError` (modelled as the `Except.error` case) and any other
speed — including a negative one — produces a matrix. -/
noncomputable def build_base_time_matrix (stops' : List Stop)
    (assumed_speed_kph : ℝ) : Except PyErr (List (List ℝ)) :=
  let n := stops'.length
  if assumed_speed_kph = 0 ∧ 2 ≤ n then Except.error PyErr.zeroDivision
  else Except.ok ((List.range n).map fun i => (List.range n).map fun j =>
    if i = j then 0
    else haversine_km (stops'.getD i default).lat (stops'.getD i default).lon
        (stops'.getD j default).lat (stops'.getD j default).lon
      / assumed_speed_kph * 60)

/-- C6: for every stop list and positive speed, the built matrix is `n×n`,
has `entry(i,j) = distance(i,j) / speed × 60` off the diagonal, zeros on the
diagonal, only non-negative entries, and is symmetric. -/
theorem build_base_time_matrix_spec (stops' : List Stop) (speed : ℝ)
    (hs : 0 < speed) :
    ∃ m, build_base_time_matrix stops' speed = Except.ok m ∧
      m.length = stops'.length ∧
      (∀ row ∈ m, row.length = stops'.length) ∧
      (∀ i, i < stops'.length → (m.getD i []).getD i 0 = 0) ∧
      (∀ i j, i < stops'.length → j < stops'.length → i ≠ j →
        (m.getD i []).getD j 0 =
          haversine_km (stops'.getD i default).lat (stops'.getD i default).lon
            (stops'.getD j default).lat (stops'.getD j default).lon
            / speed * 60) ∧
      (∀ row ∈ m, ∀ x ∈ row, 0 ≤ x) ∧
      (∀ i j, i < stops'.length → j < stops'.length →
        (m.getD i []).getD j 0 = (m.getD j []).getD i 0) := by
  have hcond : ¬(speed = 0 ∧ 2 ≤ stops'.length) := by
    rintro ⟨h, -⟩
    exact absurd h (ne_of_gt hs)
  unfold build_base_time_matrix
  rw [if_neg hcond]
  refine ⟨_, rfl, ?_, ?_, ?_, ?_, ?_, ?_⟩
  · simp
  · intro row hrow
    rcases List.mem_map.mp hrow with ⟨i, -, rfl⟩
    simp
  · intro i hi
    rw [getD_map_range _ hi, getD_map_range _ hi, if_pos rfl]
  · intro i j hi hj hij
    rw [getD_map_range _ hi, getD_map_range _ hj, if_neg hij]
  · intro row hrow x hx
    rcases List.mem_map.mp hrow with ⟨i, -, rfl⟩
    rcases List.mem_map.mp hx with ⟨j, -, rfl⟩
    by_cases hij : i = j
    · rw [if_pos hij]
    · rw [if_neg hij]
      exact mul_nonneg (div_nonneg (haversine_km_nonneg _ _ _ _) hs.le)
        (by norm_num)
  · intro i j hi hj
    rw [getD_map_range _ hi, getD_map_range _ hj,
      getD_map_range _ hj, getD_map_range _ hi]
    by_cases hij : i = j
    · rw [hij]
    · rw [if_neg hij, if_neg (Ne.symm hij), haversine_km_comm]

/-- Witness for C6: the module-level four stops at the default 35 km/h. -/
theorem build_base_time_matrix_spec_witness :
    ∃ m, build_base_time_matrix stops 35 = Except.ok m ∧
      m.length = stops.length ∧
      (∀ row ∈ m, row.length = stops.length) ∧
      (∀ i, i < stops.length → (m.getD i []).getD i 0 = 0) ∧
      (∀ i j, i < stops.length → j < stops.length → i ≠ j →
        (m.getD i []).getD j 0 =
          haversine_km (stops.getD i default).lat (stops.getD i default).lon
            (stops.getD j default).lat (stops.getD j default).lon
            / 35 * 60) ∧
      (∀ row ∈ m, ∀ x ∈ row, 0 ≤ x) ∧
      (∀ i j, i < stops.length → j < stops.length →
        (m.getD i []).getD j 0 = (m.getD j []).getD i 0) :=
  build_base_time_matrix_spec stops 35 (by norm_num)

/-- C4 counterexample: at speed `-35` (which is `≤ 0`) the builder does not
fail at all — it returns a matrix, so no `InvalidSpeed` rejection exists. -/
theorem build_base_time_matrix_negative_speed_no_error :
    ∃ m, build_base_time_matrix stops (-35) = Except.ok m := by
  unfold build_base_time_matrix
  rw [if_neg (by rintro ⟨h, -⟩; norm_num at h)]
  exact ⟨_, rfl⟩

/-- C4 amended: `build_base_time_matrix` performs no speed validation.  For
`speed = 0` with at least two stops it fails with `ZeroDivisionError` raised
during matrix construction (not an up-front `InvalidSpeed` error), and for
every `speed < 0` it succeeds, returning a matrix all of whose entries are
non-positive. -/
theorem build_base_time_matrix_no_speed_validation (stops' : List Stop)
    (speed : ℝ) (hs : speed ≤ 0) :
    (speed = 0 → 2 ≤ stops'.length →
      build_base_time_matrix stops' speed = Except.error PyErr.zeroDivision) ∧
    (speed < 0 → ∃ m, build_base_time_matrix stops' speed = Except.ok m ∧
      ∀ row ∈ m, ∀ x ∈ row, x ≤ 0) := by
  constructor
  · intro h0 h2
    unfold build_base_time_matrix
    rw [if_pos ⟨h0, h2⟩]
  · intro hneg
    unfold build_base_time_matrix
    rw [if_neg (by rintro ⟨h, -⟩; exact absurd h (ne_of_lt hneg))]
    refine ⟨_, rfl, ?_⟩
    intro row hrow x hx
    rcases List.mem_map.mp hrow with ⟨i, -, rfl⟩
    rcases List.mem_map.mp hx with ⟨j, -, rfl⟩
    by_cases hij : i = j
    · rw [if_pos hij]
    · rw [if_neg hij]
      exact mul_nonpos_iff.mpr (Or.inr
        ⟨div_nonpos_of_nonneg_of_nonpos (haversine_km_nonneg _ _ _ _) hs,
         by norm_num⟩)

/-- Witness for the amended C4 at speed `-1` on the module-level stops. -/
theorem build_base_time_matrix_no_speed_validation_witness :
    ((-1 : ℝ) = 0 → 2 ≤ stops.length →
      build_base_time_matrix stops (-1) = Except.error PyErr.zeroDivision) ∧
    ((-1 : ℝ) < 0 → ∃ m, build_base_time_matrix stops (-1) = Except.ok m ∧
      ∀ row ∈ m, ∀ x ∈ row, x ≤ 0) :=
  build_base_time_matrix_no_speed_validation stops (-1) (by norm_num)

/-! ## Weather factors (source lines 39–97)

The HTTP fetch (`requests.get` + `raise_for_status`, lines 54–55) is the one
effectful step; its outcome is passed in as an `Except TransportErr
HourlyData` value.  `Except.error` is a raised `requests` exception — there
is no `try`/`except` around the call in the source, so the embedding
propagates it.  The UTC hour key (`f"{date_str}T{hour_str}"`, derived from
the stop's `when` timestamp by `dateutil`/`strftime`) is passed in
pre-computed, since timestamp parsing is an external library concern.

The value-series reads (lines 66–69) are
`(data.get(key) or [0])[idx] or 0`: the `or [0]` substitutes the one-element
list `[0]` for a missing key or a falsy (null/empty) series, the `[idx]`
subscript raises an uncaught `IndexError` when the effective series is
shorter than `idx + 1` (the `try`/`except` at lines 60–64 wraps only
`times.index` and catches only `ValueError`), and the trailing `or 0` turns
a falsy (null or zero) entry into `0`. -/

/-- A failure raised by the HTTP layer: a transport error from
`requests.get`, or a non-2xx status raised by `raise_for_status`. -/
inductive TransportErr where
  | connectionFailure
  | httpError
deriving DecidableEq

/-- An exception escaping `get_weather_factor`: a propagated HTTP-layer
failure, or the `IndexError` raised by a value-series subscript (lines
66–69) when the series is shorter than the found hour index. -/
inductive FactorErr where
  | transport (e : TransportErr)
  | indexError
deriving DecidableEq

/-- The parsed `hourly` block of an Open-Meteo response: the hour labels and
the four per-hour value series requested on line 51.  A missing key or a
JSON-null series is represented by the empty list (both are falsy, and
`or [0]` treats them alike); a null entry inside a series is represented by
`0`, which the trailing `or 0` of the read makes an exact identification. -/
structure HourlyData where
  time : List String
  precipitation : List ℚ
  snowfall : List ℚ
  wind_speed_10m : List ℚ
  wind_gusts_10m : List ℚ
deriving DecidableEq

/-- One value-series read (lines 66–69): `(data.get(key) or [0])[idx]`.
`none` is the uncaught `IndexError` of an out-of-range subscript into the
effective series. -/
def series_read (series : List ℚ) (idx : ℕ) : Option ℚ :=
  (if series.isEmpty then [0] else series)[idx]?

/-- The factor rule set (source lines 71–85): starts at `1.0` and adds each
threshold penalty whose condition holds. -/
def weather_rule_factor (precip snow wind gust : ℚ) : ℚ :=
  let factor : ℚ := 1.0
  let factor := if precip ≥ 0.5 then factor + 0.10 else factor
  let factor := if precip ≥ 5.0 then factor + 0.10 else factor
  let factor := if snow ≥ 0.1 then factor + 0.20 else factor
  let factor := if snow ≥ 1.0 then factor + 0.30 else factor
  let factor := if wind ≥ 30 then factor + 0.05 else factor
  let factor := if gust ≥ 50 then factor + 0.10 else factor
  factor

/-- `get_weather_factor` (source lines 39–85) given the fetch outcome and the
requested hour key.  A raised transport/HTTP exception propagates (no
handler); a missing hour bucket (`ValueError` from `times.index`) returns the
neutral factor `1.0`; otherwise the four series are subscripted in source
order at the found index — each read raising `IndexError` when its effective
series is too short — and the observations feed the rule set. -/
def get_weather_factor : Except TransportErr HourlyData → String →
    Except FactorErr ℚ
  | .error e, _ => .error (.transport e)
  | .ok data, hour_key =>
    match data.time.indexOf? hour_key with
    | none => .ok 1.0
    | some idx =>
      match series_read data.precipitation idx with
      | none => .error .indexError
      | some precip =>
        match series_read data.snowfall idx with
        | none => .error .indexError
        | some snow =>
          match series_read data.wind_speed_10m idx with
          | none => .error .indexError
          | some wind =>
            match series_read data.wind_gusts_10m idx with
            | none => .error .indexError
            | some gust => .ok (weather_rule_factor precip snow wind gust)

/-- `get_stop_weather_factors` (source lines 87–97): one factor per stop, in
order.  The loop body has no exception handler, so the first stop whose fetch
raised aborts the whole run. -/
def get_stop_weather_factors :
    List (Except TransportErr HourlyData × String) →
    Except FactorErr (List ℚ)
  | [] => .ok []
  | (fetched, hour_key) :: rest =>
    match get_weather_factor fetched hour_key with
    | .error e => .error e
    | .ok x =>
      match get_stop_weather_factors rest with
      | .error e => .error e
      | .ok xs => .ok (x :: xs)

/-- C5: the computed weather factor is `1.0` plus the six independent
threshold penalties, each contributed exactly when its condition holds. -/
theorem weather_rule_factor_eq (precip snow wind gust : ℚ) :
    weather_rule_factor precip snow wind gust =
      1 + (if precip ≥ 0.5 then (0.10 : ℚ) else 0)
        + (if precip ≥ 5.0 then (0.10 : ℚ) else 0)
        + (if snow ≥ 0.1 then (0.20 : ℚ) else 0)
        + (if snow ≥ 1.0 then (0.30 : ℚ) else 0)
        + (if wind ≥ 30 then (0.05 : ℚ) else 0)
        + (if gust ≥ 50 then (0.10 : ℚ) else 0) := by
  unfold weather_rule_factor
  dsimp only
  split_ifs <;> norm_num

/-- The rule-set factor always lies in `[1, 1.85]`. -/
lemma weather_rule_factor_bounds (precip snow wind gust : ℚ) :
    1 ≤ weather_rule_factor precip snow wind gust ∧
      weather_rule_factor precip snow wind gust ≤ 1.85 := by
  unfold weather_rule_factor
  dsimp only
  split_ifs <;> norm_num

/-- C10 counterexample: the hour can be found and yet no factor be returned:
with the hour at index `1` and an absent precipitation series, the effective
series is `[0]` and the subscript `[0][1]` raises an uncaught `IndexError`,
so the lookup produces an exception, not a factor in `[1, 1.85]`. -/
theorem get_weather_factor_short_series_raises :
    (HourlyData.mk ["2025-11-10T13:00", "2025-11-10T14:00"] [] [] [] []).time.indexOf?
        "2025-11-10T14:00" = some 1 ∧
    get_weather_factor
        (Except.ok (HourlyData.mk ["2025-11-10T13:00", "2025-11-10T14:00"]
          [] [] [] []))
        "2025-11-10T14:00" = Except.error FactorErr.indexError :=
  ⟨rfl, rfl⟩

/-- C10 amended: whenever `get_weather_factor` does return a factor for a
response in which the requested hour is found, that factor lies in the
closed interval `[1, 1.85]` — `1.85` being `1` plus the sum of all six
penalties — no matter how extreme the observations are; a response in which
some value series is shorter than the found hour index instead raises an
uncaught `IndexError` and returns no factor. -/
theorem get_weather_factor_bounded (data : HourlyData) (hour_key : String)
    (idx : ℕ) (f : ℚ) (hfound : data.time.indexOf? hour_key = some idx)
    (hok : get_weather_factor (Except.ok data) hour_key = Except.ok f) :
    1 ≤ f ∧ f ≤ 1.85 := by
  simp only [get_weather_factor] at hok
  split at hok
  · injection hok with h
    rw [← h]
    norm_num
  · split at hok
    · exact Except.noConfusion hok
    · split at hok
      · exact Except.noConfusion hok
      · split at hok
        · exact Except.noConfusion hok
        · split at hok
          · exact Except.noConfusion hok
          · injection hok with h
            rw [← h]
            exact weather_rule_factor_bounds _ _ _ _

/-- Witness for the amended C10: an hour bucket reporting a violent storm
yields the maximal factor `1.85`, within the bound. -/
theorem get_weather_factor_bounded_witness :
    1 ≤ (1.85 : ℚ) ∧ (1.85 : ℚ) ≤ 1.85 :=
  get_weather_factor_bounded
    ⟨["2025-11-10T13:00"], [80], [30], [120], [200]⟩
    "2025-11-10T13:00" 0 1.85 (by decide)
    (by
      simp only [get_weather_factor]
      rw [show (["2025-11-10T13:00"] : List String).indexOf?
          "2025-11-10T13:00" = some 0 by decide]
      norm_num [series_read, weather_rule_factor])

/-- C3 counterexample: a transport failure is not converted into the neutral
factor — it propagates out of `get_weather_factor`, and through
`get_stop_weather_factors` it aborts the whole planning run. -/
theorem get_weather_factor_transport_failure_propagates :
    get_weather_factor (Except.error TransportErr.connectionFailure)
        "2025-11-10T13:00" =
      Except.error (FactorErr.transport TransportErr.connectionFailure) ∧
      get_stop_weather_factors
        [(Except.error TransportErr.connectionFailure, "2025-11-10T13:00")] =
        Except.error (FactorErr.transport TransportErr.connectionFailure) :=
  ⟨rfl, rfl⟩

/-- A run completes exactly when no stop's lookup raises: if every stop's
`get_weather_factor` call returns a factor, the loop returns the factor
list. -/
lemma get_stop_weather_factors_ok :
    ∀ fetches : List (Except TransportErr HourlyData × String),
      (∀ p ∈ fetches, ∃ q, get_weather_factor p.1 p.2 = Except.ok q) →
      ∃ fs, get_stop_weather_factors fetches = Except.ok fs := by
  intro fetches
  induction fetches with
  | nil => exact fun _ => ⟨[], rfl⟩
  | cons p rest ih =>
    intro hok
    rcases hok p (List.mem_cons_self p rest) with ⟨q, hq⟩
    rcases ih (fun x hx => hok x (List.mem_cons_of_mem p hx)) with ⟨fs, hfs⟩
    obtain ⟨pf, pk⟩ := p
    refine ⟨q :: fs, ?_⟩
    simp only [get_stop_weather_factors]
    rw [hq, hfs]

/-- C3 amended: when the fetch itself succeeds but the requested hour has no
matching forecast bucket, the factor is exactly `1.0` and that lookup does
not abort; a run in which every stop's lookup returns a factor completes
with the factor list.  A transport or HTTP failure, in contrast, propagates
as an uncaught exception and aborts the run (see the counterexample), as
does the `IndexError` of a value series shorter than a found hour index. -/
theorem get_weather_factor_missing_hour_neutral (data : HourlyData)
    (hour_key : String) (hmiss : data.time.indexOf? hour_key = none)
    (fetches : List (Except TransportErr HourlyData × String))
    (hok : ∀ p ∈ fetches, ∃ q, get_weather_factor p.1 p.2 = Except.ok q) :
    get_weather_factor (Except.ok data) hour_key = Except.ok 1 ∧
      ∃ fs, get_stop_weather_factors fetches = Except.ok fs := by
  constructor
  · simp only [get_weather_factor]
    rw [hmiss]
    norm_num
  · exact get_stop_weather_factors_ok fetches hok

/-- Witness for the amended C3: a response holding only the 14:00 bucket,
queried for 13:00, plus a one-stop run whose lookup returned a factor. -/
theorem get_weather_factor_missing_hour_neutral_witness :
    get_weather_factor
        (Except.ok ⟨["2025-11-10T14:00"], [9], [9], [99], [99]⟩)
        "2025-11-10T13:00" = Except.ok 1 ∧
      ∃ fs, get_stop_weather_factors
        [(Except.ok ⟨["2025-11-10T14:00"], [9], [9], [99], [99]⟩,
          "2025-11-10T13:00")] = Except.ok fs :=
  get_weather_factor_missing_hour_neutral
    ⟨["2025-11-10T14:00"], [9], [9], [99], [99]⟩ "2025-11-10T13:00" (by decide)
    [(Except.ok ⟨["2025-11-10T14:00"], [9], [9], [99], [99]⟩,
      "2025-11-10T13:00")]
    (by
      intro p hp
      rw [List.mem_singleton] at hp
      subst hp
      refine ⟨1.0, ?_⟩
      dsimp only
      simp only [get_weather_factor]
      rw [show (["2025-11-10T14:00"] : List String).indexOf?
          "2025-11-10T13:00" = none by decide])

/-! ## Weather-adjusted matrix (source lines 100–112)

The matrix layers below are generic over a `LinearOrderedField`, the exact
model of the source's float arithmetic; the pipeline instantiates them at the
real-valued base matrix, the witnesses at `ℚ`. -/

/-- In-range `List.getD` yields a member of the list. -/
lemma getD_mem {β : Type _} {l : List β} {i : ℕ} (h : i < l.length) (d : β) :
    l.getD i d ∈ l := by
  rw [List.getD_eq_getElem l d h]
  exact List.getElem_mem h

/-- `apply_weather_to_matrix` (source lines 100–112):
`m[i][j] = base_matrix[i][j] * max(node_factors[i], node_factors[j])` off the
diagonal, `0.0` on it, with `n = len(base_matrix)`. -/
def apply_weather_to_matrix {α : Type _} [LinearOrderedField α]
    (base_matrix : List (List α)) (node_factors : List α) : List (List α) :=
  let n := base_matrix.length
  (List.range n).map fun i => (List.range n).map fun j =>
    if i = j then 0
    else (base_matrix.getD i []).getD j 0 *
      max (node_factors.getD i 0) (node_factors.getD j 0)

/-- The adjusted matrix has as many rows as the base matrix. -/
lemma apply_weather_to_matrix_length {α : Type _} [LinearOrderedField α]
    (base_matrix : List (List α)) (node_factors : List α) :
    (apply_weather_to_matrix base_matrix node_factors).length =
      base_matrix.length := by
  unfold apply_weather_to_matrix
  simp

/-- Every row of the adjusted matrix has the base matrix's row count as its
length, so the result is square. -/
lemma apply_weather_to_matrix_row_length {α : Type _} [LinearOrderedField α]
    (base_matrix : List (List α)) (node_factors : List α) :
    ∀ row ∈ apply_weather_to_matrix base_matrix node_factors,
      row.length = base_matrix.length := by
  intro row hrow
  unfold apply_weather_to_matrix at hrow
  rcases List.mem_map.mp hrow with ⟨i, -, rfl⟩
  simp

/-- Entry formula of the adjusted matrix at in-range indices. -/
lemma apply_weather_to_matrix_entry {α : Type _} [LinearOrderedField α]
    (base_matrix : List (List α)) (node_factors : List α) {i j : ℕ}
    (hi : i < base_matrix.length) (hj : j < base_matrix.length) :
    ((apply_weather_to_matrix base_matrix node_factors).getD i []).getD j 0 =
      if i = j then 0
      else (base_matrix.getD i []).getD j 0 *
        max (node_factors.getD i 0) (node_factors.getD j 0) := by
  unfold apply_weather_to_matrix
  dsimp only
  rw [getD_map_range _ hi, getD_map_range _ hj]

/-- C1: for a square base matrix and a factor list of matching length, the
adjusted matrix has the same shape, `entry(i,j) = base(i,j) ×
max(factor(i), factor(j))` for `i ≠ j`, `0` for `i = j`; and when the base
entries are non-negative and all factors are `≥ 1`, the result keeps the zero
diagonal and non-negativity invariants. -/
theorem apply_weather_to_matrix_spec {α : Type _} [LinearOrderedField α]
    (base_matrix : List (List α)) (node_factors : List α)
    (hsq : ∀ row ∈ base_matrix, row.length = base_matrix.length)
    (hlen : node_factors.length = base_matrix.length) :
    (apply_weather_to_matrix base_matrix node_factors).length =
      base_matrix.length ∧
    (∀ row ∈ apply_weather_to_matrix base_matrix node_factors,
      row.length = base_matrix.length) ∧
    (∀ i, i < base_matrix.length →
      ((apply_weather_to_matrix base_matrix node_factors).getD i []).getD i 0
        = 0) ∧
    (∀ i j, i < base_matrix.length → j < base_matrix.length → i ≠ j →
      ((apply_weather_to_matrix base_matrix node_factors).getD i []).getD j 0
        = (base_matrix.getD i []).getD j 0 *
          max (node_factors.getD i 0) (node_factors.getD j 0)) ∧
    ((∀ row ∈ base_matrix, ∀ x ∈ row, 0 ≤ x) →
      (∀ f ∈ node_factors, 1 ≤ f) →
      ∀ row ∈ apply_weather_to_matrix base_matrix node_factors,
        ∀ x ∈ row, 0 ≤ x) := by
  refine ⟨apply_weather_to_matrix_length _ _,
    apply_weather_to_matrix_row_length _ _, ?_, ?_, ?_⟩
  · intro i hi
    rw [apply_weather_to_matrix_entry _ _ hi hi, if_pos rfl]
  · intro i j hi hj hij
    rw [apply_weather_to_matrix_entry _ _ hi hj, if_neg hij]
  · intro hnn hf row hrow x hx
    unfold apply_weather_to_matrix at hrow
    rcases List.mem_map.mp hrow with ⟨i, hmem, rfl⟩
    rcases List.mem_map.mp hx with ⟨j, hmem', rfl⟩
    have hi : i < base_matrix.length := List.mem_range.mp hmem
    have hj : j < base_matrix.length := List.mem_range.mp hmem'
    by_cases hij : i = j
    · rw [if_pos hij]
    · rw [if_neg hij]
      have hrowmem : base_matrix.getD i [] ∈ base_matrix := getD_mem hi []
      have hjrow : j < (base_matrix.getD i []).length := by
        rw [hsq _ hrowmem]; exact hj
      have hbase : 0 ≤ (base_matrix.getD i []).getD j 0 := by
        rw [List.getD_eq_getElem _ _ hjrow]
        exact hnn _ hrowmem _ (List.getElem_mem hjrow)
      have hfi : 1 ≤ node_factors.getD i 0 := by
        have hi' : i < node_factors.length := by rw [hlen]; exact hi
        rw [List.getD_eq_getElem _ _ hi']
        exact hf _ (List.getElem_mem hi')
      exact mul_nonneg hbase
        (le_trans (le_trans zero_le_one hfi) (le_max_left _ _))

/-- Witness for C1 at a concrete rational matrix and factor pair. -/
theorem apply_weather_to_matrix_spec_witness :
    (apply_weather_to_matrix [[(0:ℚ), 2], [3, 0]] [1, 2]).length =
      ([[(0:ℚ), 2], [3, 0]] : List (List ℚ)).length ∧
    (∀ row ∈ apply_weather_to_matrix [[(0:ℚ), 2], [3, 0]] [1, 2],
      row.length = ([[(0:ℚ), 2], [3, 0]] : List (List ℚ)).length) ∧
    (∀ i, i < ([[(0:ℚ), 2], [3, 0]] : List (List ℚ)).length →
      ((apply_weather_to_matrix [[(0:ℚ), 2], [3, 0]] [1, 2]).getD i []).getD i 0
        = 0) ∧
    (∀ i j, i < ([[(0:ℚ), 2], [3, 0]] : List (List ℚ)).length →
      j < ([[(0:ℚ), 2], [3, 0]] : List (List ℚ)).length → i ≠ j →
      ((apply_weather_to_matrix [[(0:ℚ), 2], [3, 0]] [1, 2]).getD i []).getD j 0
        = (([[(0:ℚ), 2], [3, 0]] : List (List ℚ)).getD i []).getD j 0 *
          max (([1, 2] : List ℚ).getD i 0) (([1, 2] : List ℚ).getD j 0)) ∧
    ((∀ row ∈ ([[(0:ℚ), 2], [3, 0]] : List (List ℚ)), ∀ x ∈ row, 0 ≤ x) →
      (∀ f ∈ ([1, 2] : List ℚ), 1 ≤ f) →
      ∀ row ∈ apply_weather_to_matrix [[(0:ℚ), 2], [3, 0]] [1, 2],
        ∀ x ∈ row, 0 ≤ x) :=
  apply_weather_to_matrix_spec [[(0:ℚ), 2], [3, 0]] [1, 2]
    (by decide) (by decide)

/-- C7: with base entries non-negative (the TimeMatrix invariant) and all
factors `≥ 1`, every adjusted entry dominates the corresponding base entry;
and all factors exactly `1` reproduce the base matrix on the nose. -/
theorem apply_weather_to_matrix_dominates {α : Type _} [LinearOrderedField α]
    (base_matrix : List (List α)) (node_factors : List α)
    (hsq : ∀ row ∈ base_matrix, row.length = base_matrix.length)
    (hdiag : ∀ i, i < base_matrix.length →
      (base_matrix.getD i []).getD i 0 = 0)
    (hnn : ∀ row ∈ base_matrix, ∀ x ∈ row, 0 ≤ x)
    (hlen : node_factors.length = base_matrix.length)
    (hf : ∀ f ∈ node_factors, 1 ≤ f) :
    (∀ i j, i < base_matrix.length → j < base_matrix.length →
      (base_matrix.getD i []).getD j 0 ≤
        ((apply_weather_to_matrix base_matrix node_factors).getD i []).getD
          j 0) ∧
    ((∀ f ∈ node_factors, f = 1) →
      apply_weather_to_matrix base_matrix node_factors = base_matrix) := by
  have hfac : ∀ k, k < base_matrix.length → 1 ≤ node_factors.getD k 0 := by
    intro k hk
    have hk' : k < node_factors.length := by rw [hlen]; exact hk
    rw [List.getD_eq_getElem _ _ hk']
    exact hf _ (List.getElem_mem hk')
  constructor
  · intro i j hi hj
    rw [apply_weather_to_matrix_entry _ _ hi hj]
    by_cases hij : i = j
    · rw [if_pos hij, hij, hdiag j hj]
    · rw [if_neg hij]
      have hrowmem : base_matrix.getD i [] ∈ base_matrix := getD_mem hi []
      have hjrow : j < (base_matrix.getD i []).length := by
        rw [hsq _ hrowmem]; exact hj
      have hbase : 0 ≤ (base_matrix.getD i []).getD j 0 := by
        rw [List.getD_eq_getElem _ _ hjrow]
        exact hnn _ hrowmem _ (List.getElem_mem hjrow)
      exact le_mul_of_one_le_right hbase
        (le_trans (hfac i hi) (le_max_left _ _))
  · intro hone
    have hone' : ∀ k, k < base_matrix.length → node_factors.getD k 0 = 1 := by
      intro k hk
      have hk' : k < node_factors.length := by rw [hlen]; exact hk
      rw [List.getD_eq_getElem _ _ hk']
      exact hone _ (List.getElem_mem hk')
    apply List.ext_getElem
    · rw [apply_weather_to_matrix_length]
    · intro i h1 h2
      have hi : i < base_matrix.length := by
        rw [apply_weather_to_matrix_length] at h1; exact h1
      apply List.ext_getElem
      · have := apply_weather_to_matrix_row_length base_matrix node_factors
          _ (List.getElem_mem h1)
        rw [this, hsq _ (List.getElem_mem h2)]
      · intro j hj1 hj2
        have hrl : ((apply_weather_to_matrix base_matrix node_factors)[i]).length
            = base_matrix.length :=
          apply_weather_to_matrix_row_length base_matrix node_factors _
            (List.getElem_mem h1)
        have hj : j < base_matrix.length := by rw [← hrl]; exact hj1
        have lhs : (apply_weather_to_matrix base_matrix node_factors)[i][j] =
            ((apply_weather_to_matrix base_matrix node_factors).getD i
              []).getD j 0 := by
          rw [List.getD_eq_getElem _ _ h1, List.getD_eq_getElem _ _ hj1]
        have rhs : base_matrix[i][j] =
            (base_matrix.getD i []).getD j 0 := by
          rw [List.getD_eq_getElem _ _ h2, List.getD_eq_getElem _ _ hj2]
        rw [lhs, rhs, apply_weather_to_matrix_entry _ _ hi hj]
        by_cases hij : i = j
        · rw [if_pos hij, hij, hdiag j hj]
        · rw [if_neg hij, hone' i hi, hone' j hj]
          simp

/-- Witness for C7 at a concrete rational matrix with all-ones factors. -/
theorem apply_weather_to_matrix_dominates_witness :
    (∀ i j, i < ([[(0:ℚ), 1], [1, 0]] : List (List ℚ)).length →
      j < ([[(0:ℚ), 1], [1, 0]] : List (List ℚ)).length →
      (([[(0:ℚ), 1], [1, 0]] : List (List ℚ)).getD i []).getD j 0 ≤
        ((apply_weather_to_matrix [[(0:ℚ), 1], [1, 0]] [1, 1]).getD i []).getD
          j 0) ∧
    ((∀ f ∈ ([1, 1] : List ℚ), f = 1) →
      apply_weather_to_matrix [[(0:ℚ), 1], [1, 0]] [1, 1] =
        [[(0:ℚ), 1], [1, 0]]) :=
  apply_weather_to_matrix_dominates [[(0:ℚ), 1], [1, 0]] [1, 1]
    (by decide) (by decide) (by decide) (by decide) (by decide)

/-! ## Route solver (source lines 115–150)

`solve_tsp` delegates the search itself to OR-Tools (an external library):
`RoutingModel` over `n` nodes, one vehicle, fixed start, arc costs given by
the integer-scaled callback, and `SolveWithParameters` returning either
nothing (a `RuntimeError` in the source) or a feasible assignment.  A
feasible single-vehicle assignment is, by the routing model's contract, a
closed route through all `n` nodes from the start; it is modelled here as
the list `visits` of the other nodes in visiting order, constrained in the
theorems to be a permutation of the remaining indices.  The route extraction
(lines 140–144) produces `start :: visits ++ [start]`, and the reported total
(lines 146–148) re-sums the original, unscaled matrix entries along the
extracted order — the `× 100` scaling lives only in `time_callback`. -/

/-- The reported total (source lines 146–148): sum of the matrix entries over
consecutive pairs (`zip(order[:-1], order[1:])`) of a tour. -/
def tourCost {α : Type _} [LinearOrderedField α] (time_matrix : List (List α))
    (order : List ℕ) : α :=
  ((order.dropLast.zip order.tail).map fun ab =>
    (time_matrix.getD ab.1 []).getD ab.2 0).sum

/-- The search-internal arc cost (source line 125): entries scaled to
integers by `int(round(time * 100))`.  Search-internal only — the reported
total never uses it. -/
def time_callback (time_matrix : List (List ℚ)) (i j : ℕ) : ℤ :=
  round ((time_matrix.getD i []).getD j 0 * 100)

/-- `solve_tsp` (source lines 115–150) given the feasible visiting order the
external solver discovered: the extracted route and its recomputed unscaled
total. -/
def solve_tsp {α : Type _} [LinearOrderedField α]
    (time_matrix : List (List α)) (start_index : ℕ) (visits : List ℕ) :
    List ℕ × α :=
  let order := start_index :: visits ++ [start_index]
  (order, tourCost time_matrix order)

/-- A closed tour over `n` stops from `start_index`: length `n + 1`, starts
and ends at `start_index`, visits every other in-range index exactly once,
and uses only in-range indices. -/
def ValidTour (n start_index : ℕ) (order : List ℕ) : Prop :=
  order.length = n + 1 ∧ order.head? = some start_index ∧
  order.getLast? = some start_index ∧
  (∀ v, v < n → v ≠ start_index → order.count v = 1) ∧
  (∀ v ∈ order, v < n)

instance (n start_index : ℕ) (order : List ℕ) :
    Decidable (ValidTour n start_index order) := by
  unfold ValidTour
  infer_instance

/-- A tour of minimal reported cost among all valid tours. -/
def IsOptimal {α : Type _} [LinearOrderedField α]
    (time_matrix : List (List α)) (n start_index : ℕ)
    (order : List ℕ) : Prop :=
  ValidTour n start_index order ∧
  ∀ other, ValidTour n start_index other →
    tourCost time_matrix order ≤ tourCost time_matrix other

/-- C2: on `n ≥ 1` stops, for every feasible assignment the external solver
can return, the extracted tour has length `n + 1`, starts and ends at the
configured start index, visits every other index exactly once, and the
returned total is the sum of the original unscaled adjusted times along the
tour's consecutive pairs. -/
theorem solve_tsp_spec {α : Type _} [LinearOrderedField α]
    (time_matrix : List (List α)) (start_index : ℕ) (visits : List ℕ)
    (hstart : start_index < time_matrix.length)
    (hperm : visits.Perm
      ((List.range time_matrix.length).filter fun v => v != start_index)) :
    ValidTour time_matrix.length start_index
      (solve_tsp time_matrix start_index visits).1 ∧
    (solve_tsp time_matrix start_index visits).2 =
      tourCost time_matrix (solve_tsp time_matrix start_index visits).1 := by
  have herase : (List.range time_matrix.length).erase start_index =
      (List.range time_matrix.length).filter fun v => v != start_index :=
    List.Nodup.erase_eq_filter (List.nodup_range _) start_index
  have hsmem : start_index ∈ List.range time_matrix.length :=
    List.mem_range.mpr hstart
  have hvlen : visits.length = time_matrix.length - 1 := by
    rw [hperm.length_eq, ← herase, List.length_erase_of_mem hsmem,
      List.length_range]
  refine ⟨⟨?_, rfl, ?_, ?_, ?_⟩, rfl⟩
  · show ((start_index :: visits) ++ [start_index]).length =
      time_matrix.length + 1
    rw [List.length_append, List.length_cons, hvlen]
    simp only [List.length_cons, List.length_nil]
    omega
  · show ((start_index :: visits) ++ [start_index]).getLast? =
      some start_index
    exact List.getLast?_concat _
  · intro v hv hvne
    show (((start_index :: visits) ++ [start_index]).count v) = 1
    rw [List.count_append, List.count_cons_of_ne hvne, hperm.count_eq,
      ← herase, List.count_erase_of_ne hvne,
      List.count_eq_one_of_mem (List.nodup_range _) (List.mem_range.mpr hv),
      List.count_eq_zero.mpr (show v ∉ [start_index] by simp [hvne])]
  · intro v hvmem
    have hvmem' : v ∈ (start_index :: visits) ++ [start_index] := hvmem
    rcases List.mem_append.mp hvmem' with hvc | hvs
    · rcases List.mem_cons.mp hvc with rfl | hvv
      · exact hstart
      · exact List.mem_range.mp (List.mem_filter.mp (hperm.subset hvv)).1
    · rw [List.mem_singleton.mp hvs]
      exact hstart

/-- Witness for C2 on a concrete 2×2 rational matrix. -/
theorem solve_tsp_spec_witness :
    ValidTour ([[(0:ℚ), 1], [1, 0]] : List (List ℚ)).length 0
      (solve_tsp [[(0:ℚ), 1], [1, 0]] 0 [1]).1 ∧
    (solve_tsp [[(0:ℚ), 1], [1, 0]] 0 [1]).2 =
      tourCost [[(0:ℚ), 1], [1, 0]] (solve_tsp [[(0:ℚ), 1], [1, 0]] 0 [1]).1 :=
  solve_tsp_spec [[(0:ℚ), 1], [1, 0]] 0 [1] (by decide) (by decide)

/-! ## Monotonicity of the optimal reported cost in a single factor (C9) -/

/-- Raising the factor at one position raises the factor list pointwise. -/
lemma getD_set_pointwise_le {α : Type _} [LinearOrderedField α]
    (node_factors : List α) (k : ℕ) (c : α) (hc : node_factors.getD k 0 ≤ c)
    (i : ℕ) :
    node_factors.getD i 0 ≤ (node_factors.set k c).getD i 0 := by
  rw [List.getD_eq_getElem?_getD node_factors i 0,
    List.getD_eq_getElem?_getD (node_factors.set k c) i 0,
    List.getElem?_set]
  by_cases hik : k = i
  · rw [if_pos hik]
    subst hik
    by_cases hk : k < node_factors.length
    · rw [if_pos hk]
      simp only [Option.getD_some]
      rw [← List.getD_eq_getElem?_getD node_factors k 0]
      exact hc
    · rw [if_neg hk, List.getElem?_eq_none (le_of_not_lt hk)]
  · rw [if_neg hik]

/-- An in-range entry of a non-negative base matrix is non-negative (an
out-of-row-range read is the default `0`). -/
lemma base_entry_nonneg {α : Type _} [LinearOrderedField α]
    (base_matrix : List (List α))
    (hnn : ∀ row ∈ base_matrix, ∀ x ∈ row, 0 ≤ x) {i : ℕ} (j : ℕ)
    (hi : i < base_matrix.length) :
    0 ≤ (base_matrix.getD i []).getD j 0 := by
  by_cases hj : j < (base_matrix.getD i []).length
  · rw [List.getD_eq_getElem _ _ hj]
    exact hnn _ (getD_mem hi []) _ (List.getElem_mem hj)
  · rw [List.getD_eq_default _ _ (le_of_not_lt hj)]

/-- Raising one factor never lowers any in-range adjusted entry. -/
lemma apply_weather_entry_mono {α : Type _} [LinearOrderedField α]
    (base_matrix : List (List α)) (node_factors : List α) (k : ℕ) (c : α)
    (hnn : ∀ row ∈ base_matrix, ∀ x ∈ row, 0 ≤ x)
    (hc : node_factors.getD k 0 ≤ c) {a b : ℕ}
    (ha : a < base_matrix.length) (hb : b < base_matrix.length) :
    ((apply_weather_to_matrix base_matrix node_factors).getD a []).getD b 0 ≤
      ((apply_weather_to_matrix base_matrix
        (node_factors.set k c)).getD a []).getD b 0 := by
  rw [apply_weather_to_matrix_entry _ _ ha hb,
    apply_weather_to_matrix_entry _ _ ha hb]
  by_cases hab : a = b
  · rw [if_pos hab, if_pos hab]
  · rw [if_neg hab, if_neg hab]
    exact mul_le_mul_of_nonneg_left
      (max_le_max (getD_set_pointwise_le node_factors k c hc a)
        (getD_set_pointwise_le node_factors k c hc b))
      (base_entry_nonneg base_matrix hnn b ha)

/-- C9: over a non-negative base matrix (the TimeMatrix invariant) with all
factors `≥ 1`, raising any single stop's weather factor — others fixed —
never decreases the reported cost of an optimal tour of the resulting
adjusted matrix. -/
theorem adjusted_optimal_cost_monotone {α : Type _} [LinearOrderedField α]
    (base_matrix : List (List α)) (node_factors : List α) (k : ℕ) (c : α)
    (start_index : ℕ) (t t' : List ℕ)
    (hnn : ∀ row ∈ base_matrix, ∀ x ∈ row, 0 ≤ x)
    (hf : ∀ f ∈ node_factors, 1 ≤ f)
    (hc : node_factors.getD k 0 ≤ c)
    (hopt : IsOptimal (apply_weather_to_matrix base_matrix node_factors)
      base_matrix.length start_index t)
    (hopt' : IsOptimal
      (apply_weather_to_matrix base_matrix (node_factors.set k c))
      base_matrix.length start_index t') :
    tourCost (apply_weather_to_matrix base_matrix node_factors) t ≤
      tourCost (apply_weather_to_matrix base_matrix (node_factors.set k c))
        t' := by
  have step1 :
      tourCost (apply_weather_to_matrix base_matrix node_factors) t ≤
        tourCost (apply_weather_to_matrix base_matrix node_factors) t' :=
    hopt.2 t' hopt'.1
  have hrange : ∀ v ∈ t', v < base_matrix.length := hopt'.1.2.2.2.2
  have step2 :
      tourCost (apply_weather_to_matrix base_matrix node_factors) t' ≤
        tourCost (apply_weather_to_matrix base_matrix (node_factors.set k c))
          t' := by
    unfold tourCost
    apply List.sum_le_sum
    rintro ⟨a, b⟩ hab
    obtain ⟨hal, hbl⟩ := List.of_mem_zip hab
    exact apply_weather_entry_mono base_matrix node_factors k c hnn hc
      (hrange a (List.dropLast_subset _ hal))
      (hrange b (List.tail_subset _ hbl))
  exact le_trans step1 step2

/-- On a single stop the only valid tour is the trivial loop `[0, 0]`. -/
lemma validTour_one (t : List ℕ) (h : ValidTour 1 0 t) : t = [0, 0] := by
  obtain ⟨hlen, hhead, hlast, -, -⟩ := h
  rcases List.length_eq_two.mp hlen with ⟨a, b, rfl⟩
  have ha : a = 0 := by simpa using hhead
  have hb : b = 0 := by simpa using hlast
  rw [ha, hb]

/-- Witness for C9: the one-stop instance, where `[0, 0]` is optimal for any
factor vector, with the single factor raised from `1` to `2`. -/
theorem adjusted_optimal_cost_monotone_witness :
    tourCost (apply_weather_to_matrix [[(0:ℚ)]] [1]) [0, 0] ≤
      tourCost (apply_weather_to_matrix [[(0:ℚ)]] (List.set [1] 0 2)) [0, 0] :=
  adjusted_optimal_cost_monotone [[(0:ℚ)]] [1] 0 2 0 [0, 0] [0, 0]
    (by decide) (by decide) (by decide)
    ⟨by decide, fun other hother => by rw [validTour_one other hother]⟩
    ⟨by decide, fun other hother => by rw [validTour_one other hother]⟩

end RouteStorm
